import Mathlib

/-!
Verification of the RRWrite manuscript-workflow manager.

This file gives a shallow embedding of the core of the repository
(`scripts/rrwrite_state_manager.py`, `scripts/rrwrite_git.py`,
`scripts/rrwrite_citation_validator.py`,
`scripts/rrwrite_import_evidence_tool.py`) and proves or refutes the
spec's claims about it.  Python dictionaries become association lists,
python sets become `Finset`s or key lists, exceptions become `Except`,
and the subprocess/filesystem environment becomes explicit record
arguments.  Status values are kept as the literal strings the source
compares against.
-/

namespace RRWrite

/-! ### Python string primitives

Character-list implementations of the python string operations the
source relies on (`in` substring test, `str.lower`, `str.startswith`,
`int(...)`), written so that they evaluate by kernel reduction. -/

/-- Does the second list start with the first? (python `startswith` on chars). -/
def charsStartWith : List Char → List Char → Bool
  | [], _ => true
  | _ :: _, [] => false
  | a :: as, b :: bs => a == b && charsStartWith as bs

/-- Does the second list contain the first as a contiguous sublist?
(python `pat in hay` on chars). -/
def charsContain (pat : List Char) : List Char → Bool
  | [] => pat.isEmpty
  | b :: bs => charsStartWith pat (b :: bs) || charsContain pat bs

/-- python `pat in hay` on strings. -/
def strContains (hay pat : String) : Bool := charsContain pat.data hay.data

/-- python `s.startswith(pat)`. -/
def strStartsWith (s pat : String) : Bool := charsStartWith pat.data s.data

/-- ASCII lower-casing of one character (python `str.lower` on the
ASCII identifiers this system manipulates). -/
def charToLower (c : Char) : Char :=
  if 'A' ≤ c ∧ c ≤ 'Z' then Char.ofNat (c.toNat + 32) else c

/-- python `s.lower()`. -/
def pyLower (s : String) : String := String.mk (s.data.map charToLower)

/-- Decimal digit value of a character, if it is one. -/
def charDigit (c : Char) : Option Nat :=
  if '0' ≤ c ∧ c ≤ '9' then some (c.toNat - 48) else none

/-- Accumulate a decimal numeral; `none` on the first non-digit. -/
def digitsToNatAux (acc : Nat) : List Char → Option Nat
  | [] => some acc
  | c :: cs =>
    match charDigit c with
    | some d => digitsToNatAux (acc * 10 + d) cs
    | none => none

/-- Strip leading and trailing spaces. -/
def stripSpaces (l : List Char) : List Char :=
  ((l.dropWhile (· = ' ')).reverse.dropWhile (· = ' ')).reverse

/-- Signed decimal numeral parse; `none` where python `int(...)` raises
`ValueError`. -/
def pyIntOfChars (l : List Char) : Option Int :=
  match l with
  | [] => none
  | c :: cs =>
    if c = '-' then
      if cs = [] then none else (digitsToNatAux 0 cs).map (fun n => -(n : Int))
    else if c = '+' then
      if cs = [] then none else (digitsToNatAux 0 cs).map (fun n => (n : Int))
    else (digitsToNatAux 0 (c :: cs)).map (fun n => (n : Int))

/-- Models python `int(s)` on decimal string literals. -/
def pyInt (s : String) : Option Int := pyIntOfChars (stripSpaces s.data)

/-! ### Evidence import & merge engine
(`rrwrite_import_evidence_tool.py`, `merge_evidence`)

An evidence CSV row.  `doi` is `none` when the CSV cell is empty, which
pandas reads as `NaN`; pandas `drop_duplicates` groups `NaN` cells of
the subset column together, so `none` takes part in deduplication like
any other key value. -/

structure EvidenceRow where
  doi : Option String
  citation_key : String
  citation : String
  evidence_quote : String
deriving DecidableEq

/-- pandas `DataFrame.drop_duplicates(subset=["doi"], keep="last")`:
a row survives iff no later row carries the same `doi` value (with
`NaN`/`none` equal to itself); surviving rows keep their order. -/
def drop_duplicates_keep_last : List EvidenceRow → List EvidenceRow
  | [] => []
  | x :: xs =>
    if xs.any (fun y => y.doi == x.doi) then drop_duplicates_keep_last xs
    else x :: drop_duplicates_keep_last xs

/-- `merge_evidence(old_csv, new_csv, output_csv)`: the merged table it
writes is the concatenation of both tables with `drop_duplicates` by
`doi`, keeping the last occurrence (the tagging `source` column is
dropped again before the table is written and does not affect the
result). -/
def merge_evidence (old_rows new_rows : List EvidenceRow) : List EvidenceRow :=
  drop_duplicates_keep_last (old_rows ++ new_rows)

/-- Reference merge, following the spec's words: the concatenation of
both tables deduplicated by identifier (an entry with identifier `d` is
dropped when a later entry carries the same identifier, so for an
identifier defined in both tables the new table's entry is retained),
while every entry lacking an identifier is retained unconditionally. -/
def dedupByIdentifierSpec : List EvidenceRow → List EvidenceRow
  | [] => []
  | x :: xs =>
    match x.doi with
    | none => x :: dedupByIdentifierSpec xs
    | some d =>
      if xs.any (fun y => y.doi == some d) then dedupByIdentifierSpec xs
      else x :: dedupByIdentifierSpec xs

/-- The spec's `mergeEvidence(oldTable, newTable)` reference definition. -/
def mergeEvidenceSpec (old_rows new_rows : List EvidenceRow) : List EvidenceRow :=
  dedupByIdentifierSpec (old_rows ++ new_rows)

/-- Scan a table newest-first, keeping the first occurrence of each
identifier value not seen yet, where "no identifier" counts as one
shared identifier value. -/
def dedupNewestFirst (seen : List (Option String)) : List EvidenceRow → List EvidenceRow
  | [] => []
  | x :: xs =>
    if seen.contains x.doi then dedupNewestFirst seen xs
    else x :: dedupNewestFirst (x.doi :: seen) xs

/-- Amended reference merge: deduplicate the concatenation by
identifier keeping the newest (last) occurrence, with all
identifier-less entries treated as sharing a single identifier and
likewise collapsed to the newest one. -/
def mergeEvidenceSpecAmended (old_rows new_rows : List EvidenceRow) : List EvidenceRow :=
  (dedupNewestFirst [] (old_rows ++ new_rows).reverse).reverse

/-! ### Persisted state store & stage transition engine
(`rrwrite_state_manager.py`, class `StateManager`)

`StateManager._save_state` serializes `self.state` and writes it with
`open(self.state_file, "w")` followed by `json.dump`: the state file is
truncated in place and the new serialization is streamed into it.
We model a serialized state document as a `String` and record the
sequence of file contents observable by a reader across the write: the
old document (before the `open`), then — once the `open` has truncated
the file — every prefix of the new document as it is streamed.
(`rrwrite-state-manager.py`'s `_write_state` performs the identical
direct `open`/`json.dump` write.) -/

def save_state_observables (old new : String) : List String :=
  old :: (List.range (new.data.length + 1)).map (fun k => String.mk (new.data.take k))

/-- One stage record of `state["workflow_status"]`.  Stage-specific
bookkeeping fields set through `**kwargs` (counts, paths, …) never feed
back into `status` handling and are omitted here. -/
structure StageRec where
  status : String
  completed_at : Option String
  git_commit : Option String
deriving DecidableEq

/-- Fresh stage record, as in `_create_initial_state`. -/
def StageRec.fresh : StageRec :=
  { status := "not_started", completed_at := none, git_commit := none }

/-- Python dict lookup on an association list (keys are unique). -/
def lookupStage (ws : List (String × StageRec)) (stage : String) : Option StageRec :=
  (ws.find? (fun p => p.1 == stage)).map (fun p => p.2)

/-- Python dict in-place update of one key's record. -/
def setStage (ws : List (String × StageRec)) (stage : String)
    (f : StageRec → StageRec) : List (String × StageRec) :=
  ws.map (fun p => if p.1 == stage then (p.1, f p.2) else p)

/-- The `workflow_status` dict of `_create_initial_state`: all seven
stages `not_started`. -/
def initial_workflow_status : List (String × StageRec) :=
  [("repository_analysis", StageRec.fresh), ("plan", StageRec.fresh),
   ("assessment", StageRec.fresh), ("research", StageRec.fresh),
   ("drafting", StageRec.fresh), ("assembly", StageRec.fresh),
   ("critique", StageRec.fresh)]

/-- `StateManager.update_workflow_stage(stage, status, **kwargs)`:
raises `ValueError` on an unknown stage name, otherwise sets the
requested status unconditionally, stamping `completed_at` and
`git_commit` when the new status is `"completed"`.  `now` models
`_get_timestamp()` and `git` models `_get_git_commit()`. -/
def update_workflow_stage (now : String) (git : Option String)
    (ws : List (String × StageRec)) (stage status : String) :
    Except String (List (String × StageRec)) :=
  if (lookupStage ws stage).isNone then
    .error ("Unknown workflow stage: " ++ stage)
  else
    let ws1 := setStage ws stage (fun r => { r with status := status })
    let ws2 :=
      if status = "completed" then
        setStage ws1 stage (fun r => { r with completed_at := some now, git_commit := git })
      else ws1
    .ok ws2

/-- One record of `state["workflow_status"]["drafting"]["sections"]`. -/
structure SectionRec where
  status : String
  file : Option String
  completed_at : Option String
  table_count : Option Nat
deriving DecidableEq

/-- Fresh section record. -/
def SectionRec.fresh : SectionRec :=
  { status := "not_started", file := none, completed_at := none, table_count := none }

/-- The `drafting` entry of `workflow_status`: its own status fields
plus the dynamically growable section map and the two counters. -/
structure DraftingRecord where
  status : String
  sections : List (String × SectionRec)
  completed_sections : Nat
  total_sections : Nat
  completed_at : Option String
  git_commit : Option String
deriving DecidableEq

/-- Dict lookup in the section map. -/
def lookupSec (secs : List (String × SectionRec)) (name : String) : Option SectionRec :=
  (secs.find? (fun p => p.1 == name)).map (fun p => p.2)

/-- Dict in-place update of one section's record. -/
def setSec (secs : List (String × SectionRec)) (name : String)
    (f : SectionRec → SectionRec) : List (String × SectionRec) :=
  secs.map (fun p => if p.1 == name then (p.1, f p.2) else p)

/-- The initial drafting record of `_create_initial_state`: the six
default sections, `total_sections = 6`. -/
def initial_drafting : DraftingRecord :=
  { status := "not_started",
    sections := [("abstract", SectionRec.fresh), ("introduction", SectionRec.fresh),
                 ("methods", SectionRec.fresh), ("results", SectionRec.fresh),
                 ("discussion", SectionRec.fresh), ("availability", SectionRec.fresh)],
    completed_sections := 0, total_sections := 6,
    completed_at := none, git_commit := none }

/-- The dynamic-registration step of `update_section_status`: an
unseen section name is added with a fresh record and `total_sections`
grows by one. -/
def register_section (d : DraftingRecord) (sec : String) : DraftingRecord :=
  if (lookupSec d.sections sec).isNone then
    { d with sections := d.sections ++ [(sec, SectionRec.fresh)],
             total_sections := d.total_sections + 1 }
  else d

/-- The per-section field updates of `update_section_status`: store the
requested status, the file path if one is given (python truthiness:
an empty path is ignored), and on a completing update the
`completed_at` stamp and the table count if given. -/
def update_section_core (now : String) (d : DraftingRecord) (sec status : String)
    (file_path : Option String) (table_count : Option Nat) : DraftingRecord :=
  let d1 := register_section d sec
  let d2 := { d1 with sections := setSec d1.sections sec (fun r => { r with status := status }) }
  let d3 :=
    match file_path with
    | some fp => if fp = "" then d2
        else { d2 with sections := setSec d2.sections sec (fun r => { r with file := some fp }) }
    | none => d2
  if status = "completed" then
    let d4 := { d3 with sections := setSec d3.sections sec (fun r => { r with completed_at := some now }) }
    match table_count with
    | some tc => { d4 with sections := setSec d4.sections sec (fun r => { r with table_count := some tc }) }
    | none => d4
  else d3

/-- The aggregation step of `update_section_status` (run only on a
completing update): recompute `completed_sections` as the number of
sections whose status is `"completed"`, and when that count reaches
`total_sections` mark the whole drafting stage completed. -/
def aggregate_drafting (now : String) (git : Option String) (d : DraftingRecord) :
    DraftingRecord :=
  if (d.sections.filter (fun p => p.2.status == "completed")).length == d.total_sections then
    { d with
      completed_sections := (d.sections.filter (fun p => p.2.status == "completed")).length,
      status := "completed", completed_at := some now, git_commit := git }
  else
    { d with
      completed_sections := (d.sections.filter (fun p => p.2.status == "completed")).length }

/-- `StateManager.update_section_status(section, status, file_path,
table_count)` restricted to the drafting record it mutates (the
parallel `files`/`metadata` registries it also touches do not feed back
into any status): registration, field updates, then — only on a
`"completed"` update — the aggregate recomputation. -/
def update_section_status (now : String) (git : Option String) (d : DraftingRecord)
    (sec status : String) (file_path : Option String) (table_count : Option Nat) :
    DraftingRecord :=
  if status = "completed" then
    aggregate_drafting now git (update_section_core now d sec status file_path table_count)
  else update_section_core now d sec status file_path table_count

/-! ### Checkpoint manager (`rrwrite_git.py`, class `GitManager`)

The filesystem environment a `GitManager` observes: whether the
manuscript directory exists, which paths (relative to it) exist inside
it, whether its `.git` directory exists, and the `origin` remote URL of
that git directory if one is configured. -/

structure ManuscriptFS where
  dirExists : Bool
  files : List String
  gitDirExists : Bool
  remoteUrl : Option String
deriving DecidableEq

/-- The distinguishable `GitSafetyError` situations raised by
`rrwrite_git.py` (the source raises one exception class with different
messages). -/
inductive GitErr where
  | dirNotFound
  | toolRepo
  | toolRemote
  | notInitRepo
deriving DecidableEq

/-- `GitManager.RRWRITE_REMOTE_PATTERNS`. -/
def RRWRITE_REMOTE_PATTERNS : List String :=
  ["github.com/anthropics/rrwrite", "github.com/*/rrwrite", "rrwrite.git"]

/-- The tool-repo marker paths of `GitManager._check_not_tool_repo`. -/
def TOOL_MARKERS : List String :=
  ["scripts/rrwrite_state_manager.py", "scripts/rrwrite-analyze-repo.py",
   ".claude/skills/rrwrite.md"]

/-- `GitManager._validate_manuscript_directory`: the directory must
exist and must not hold the tool's own `scripts/rrwrite_state_manager.py`. -/
def validate_manuscript_directory (fs : ManuscriptFS) : Except GitErr Unit :=
  if fs.dirExists = false then .error .dirNotFound
  else if fs.files.contains "scripts/rrwrite_state_manager.py" then .error .toolRepo
  else .ok ()

/-- `GitManager._check_not_tool_repo`: refuse any directory holding one
of the tool-repo marker files. -/
def check_not_tool_repo (fs : ManuscriptFS) : Except GitErr Unit :=
  if TOOL_MARKERS.any (fun m => fs.files.contains m) then .error .toolRepo
  else .ok ()

/-- `GitManager._check_remote_url`: refuse when the configured `origin`
remote matches one of the tool-repo patterns (matching is lowercase
substring containment). -/
def check_remote_url (fs : ManuscriptFS) : Except GitErr Unit :=
  match fs.remoteUrl with
  | none => .ok ()
  | some url =>
    if RRWRITE_REMOTE_PATTERNS.any (fun p => strContains (pyLower url) (pyLower p)) then
      .error .toolRemote
    else .ok ()

/-- A commit in the manuscript's isolated version history. -/
structure Commit where
  stage : String
  description : String
  filesIncluded : List String
deriving DecidableEq

/-- The checkpoint operation: constructing a `GitManager` for the
directory (which runs `_validate_manuscript_directory` and
`_check_not_tool_repo`) and calling `GitManager.commit(files, stage,
description, metadata)` on it.  Returns the outcome together with the
resulting version history: on any safety error the history is returned
unchanged.  `.ok none` models `commit` returning `None` because
`auto_commit` is disabled; `.ok (some i)` is the index of the new
commit. -/
def checkpoint (fs : ManuscriptFS) (history : List Commit)
    (files : List String) (stage description : String) (auto_commit : Bool) :
    Except GitErr (Option Nat) × List Commit :=
  match validate_manuscript_directory fs with
  | .error e => (.error e, history)
  | .ok _ =>
    match check_not_tool_repo fs with
    | .error e => (.error e, history)
    | .ok _ =>
      if auto_commit = false then (.ok none, history)
      else if fs.gitDirExists then
        match check_remote_url fs with
        | .error e => (.error e, history)
        | .ok _ => (.ok (some history.length), history ++ [⟨stage, description, files⟩])
      else (.error .notInitRepo, history)

/-! ### Citation integrity validator (`rrwrite_citation_validator.py`)

The evidence CSV is modeled as `none` when the file does not exist and
otherwise as the list of its rows: a citation key paired with the
metadata columns layers 2 and 4 read. -/

structure EvidenceMeta where
  title : String
  abstract : String
  doi : String
  year : String
  citation_type : String
deriving DecidableEq

/-- The evidence CSV: `none` = file missing. -/
def EvidenceFile : Type := Option (List (String × EvidenceMeta))

/-- `CitationEntryValidator.load_evidence_keys`: the keys of all rows,
or the empty set when the file does not exist. -/
def load_evidence_keys (f : EvidenceFile) : List String :=
  match f with
  | none => []
  | some rows => rows.map (fun p => p.1)

/-- The distinguishable exceptions of the validator module. -/
inductive CitationErr where
  | notFound (key : String)
  | valueError
deriving DecidableEq

/-- `CitationEntryValidator.validate_at_entry`: raise
`CitationNotFoundError` unless the key is in the evidence file. -/
def validate_at_entry (citation_key : String) (f : EvidenceFile) : Except CitationErr Unit :=
  if (load_evidence_keys f).contains citation_key then .ok ()
  else .error (.notFound citation_key)

/-- One section's entry of `CitationBusinessValidator.SECTION_RULES`. -/
structure SectionRule where
  max_citations : Option Nat
  reason : String
  allowed_types : Option (List String)
  forbidden_types : Option (List String)
deriving DecidableEq

/-- `CitationBusinessValidator.SECTION_RULES`. -/
def SECTION_RULES : List (String × SectionRule) :=
  [("abstract",
    { max_citations := some 2,
      reason := "Abstracts should be self-contained, citations rarely appropriate",
      allowed_types := some ["seminal"], forbidden_types := none }),
   ("introduction",
    { max_citations := none,
      reason := "Broad background, any relevant citations appropriate",
      allowed_types := some ["seminal", "review", "recent", "tool"],
      forbidden_types := none }),
   ("methods",
    { max_citations := none,
      reason := "Should cite tools/datasets/protocols actually used",
      allowed_types := some ["tool", "protocol", "dataset"],
      forbidden_types := some ["review"] }),
   ("results",
    { max_citations := none,
      reason := "Should compare to other studies, cite benchmarks",
      allowed_types := some ["recent", "benchmark"],
      forbidden_types := some ["review"] }),
   ("discussion",
    { max_citations := none,
      reason := "Broad interpretation, most citation types appropriate",
      allowed_types := some ["seminal", "review", "recent", "tool"],
      forbidden_types := none })]

/-- Dict lookup in `SECTION_RULES`. -/
def lookupRule (sec : String) : Option SectionRule :=
  ((SECTION_RULES).find? (fun p => p.1 == sec)).map (fun p => p.2)

/-- `CitationBusinessValidator._load_citation_metadata`: the metadata
of every row, keyed by citation key ({} when the file is missing). -/
def load_citation_metadata (f : EvidenceFile) : List (String × EvidenceMeta) :=
  match f with
  | none => []
  | some rows => rows

/-- Dict lookup in the loaded metadata. -/
def lookupMeta (md : List (String × EvidenceMeta)) (key : String) : Option EvidenceMeta :=
  (md.find? (fun p => p.1 == key)).map (fun p => p.2)

/-- `CitationBusinessValidator._infer_citation_type`.  `current_year`
models `datetime.now().year`; python `int(year)` raising `ValueError`
on a malformed non-empty year field becomes `.error .valueError`. -/
def infer_citation_type (current_year : Int) (m : EvidenceMeta) : Except CitationErr String :=
  let title := pyLower m.title
  if ["software", "tool", "pipeline", "package", "algorithm"].any (fun w => strContains title w) then
    .ok "tool"
  else if ["review", "survey", "overview", "perspectives"].any (fun w => strContains title w) then
    .ok "review"
  else if ["protocol", "method", "procedure", "workflow"].any (fun w => strContains title w) then
    .ok "protocol"
  else if ["database", "dataset", "repository", "collection"].any (fun w => strContains title w) then
    .ok "dataset"
  else if ["benchmark", "comparison", "evaluation"].any (fun w => strContains title w) then
    .ok "benchmark"
  else if m.year ≠ "" then
    match pyInt m.year with
    | none => .error .valueError
    | some y =>
      if y ≥ current_year - 5 then .ok "recent"
      else if y < current_year - 10 then .ok "seminal"
      else .ok "unknown"
  else .ok "unknown"

/-- The warning text for an over-long citation list (abbreviated; the
source interpolates the same data into a prose sentence). -/
def countWarning (sec : String) (found limit : Nat) (reason : String) : String :=
  sec ++ " has " ++ toString found ++ " citations, but should have at most " ++
    toString limit ++ ". " ++ reason

/-- The warning text for a forbidden citation type. -/
def forbiddenWarning (cit cit_type sec reason : String) : String :=
  "Citation [" ++ cit ++ "] appears to be " ++ cit_type ++
    ", which is not appropriate for " ++ sec ++ ". " ++ reason

/-- The warning text for a type outside the allowed list. -/
def allowedWarning (cit cit_type sec : String) (allowed : List String) : String :=
  "Citation [" ++ cit ++ "] appears to be " ++ cit_type ++ ", but " ++ sec ++
    " typically uses: " ++ String.intercalate ", " allowed

/-- The per-citation body of the `validate_section_appropriateness`
loop: skip keys absent from the metadata, infer the type when the
stored type is `"unknown"` (which can raise), then append the
forbidden-type and allowed-type warnings. -/
def check_one_citation (current_year : Int) (md : List (String × EvidenceMeta))
    (sec : String) (rules : SectionRule) (acc : List String) (cit : String) :
    Except CitationErr (List String) :=
  match lookupMeta md cit with
  | none => .ok acc
  | some m => do
    let stored := m.citation_type
    let cit_type ← if stored = "unknown" then infer_citation_type current_year m else .ok stored
    let acc1 :=
      match rules.forbidden_types with
      | some fb => if fb.contains cit_type then acc ++ [forbiddenWarning cit cit_type sec rules.reason] else acc
      | none => acc
    let acc2 :=
      match rules.allowed_types with
      | some al => if al.contains cit_type then acc1 else acc1 ++ [allowedWarning cit cit_type sec al]
      | none => acc1
    .ok acc2

/-- `CitationBusinessValidator.validate_section_appropriateness(section,
citations)`: no rules for the section means no warnings; otherwise the
citation-count warning followed by the per-citation type warnings.
A `.error` models the python call raising (see `infer_citation_type`). -/
def validate_section_appropriateness (current_year : Int) (f : EvidenceFile)
    (sec : String) (citations : List String) : Except CitationErr (List String) :=
  let section_lower := pyLower sec
  match lookupRule section_lower with
  | none => .ok []
  | some rules =>
    let md := load_citation_metadata f
    let warnings0 :=
      match rules.max_citations with
      | some mx => if mx ≠ 0 ∧ citations.length > mx then [countWarning sec citations.length mx rules.reason] else []
      | none => []
    citations.foldlM (fun acc cit => check_one_citation current_year md sec rules acc cit) warnings0

/-- `CitationAssemblyValidator.validate_citation_completeness`,
expressed over the two key sets it compares (the set of citation keys
the regex extracts from the manuscript text and the set of keys defined
in the bibliography).  On success it returns the two (empty) orphan
sets; on any asymmetry it raises `CitationMismatchError` carrying both
offending sets. -/
def validate_citation_completeness (text_cites bib_cites : Finset String) :
    Except (Finset String × Finset String) (Finset String × Finset String) :=
  let orphaned_text := text_cites \ bib_cites
  let orphaned_bib := bib_cites \ text_cites
  if orphaned_text ≠ ∅ ∨ orphaned_bib ≠ ∅ then .error (orphaned_text, orphaned_bib)
  else .ok (orphaned_text, orphaned_bib)

/-- `CitationAuditor._verify_doi`: the first row with this key has a
DOI starting with `"10."`. -/
def verify_doi (citation_key : String) (f : EvidenceFile) : Bool :=
  match f with
  | none => false
  | some rows =>
    match rows.find? (fun p => p.1 == citation_key) with
    | some p => p.2.doi ≠ "" && strStartsWith p.2.doi "10."
    | none => false

/-- One `AuditLogEntry` appended by `CitationAuditor.log_citation_usage`
(the wall-clock timestamp is not modeled). -/
structure AuditEntry where
  sec : String
  citation : String
  context : String
  doi_verified : Bool
deriving DecidableEq

/-- The entry-validation error message (abbreviated to its identifying
first line; the source appends a long explanation). -/
def citationNotFoundMsg (key : String) : String :=
  "Citation Verification Failed: [" ++ key ++ "] not in literature_evidence.csv"

/-- The assembly-mismatch error message (abbreviated; the source
enumerates both orphan sets, which the error payload of
`validate_citation_completeness` carries here). -/
def citationMismatchMsg (orphans : Finset String × Finset String) : String :=
  "Citation Mismatch Error: " ++ toString orphans.1.card ++
    " citations in text but not in bibliography, " ++ toString orphans.2.card ++
    " citations in bibliography but not in text"

/-- `validate_all_layers(citation_keys, section, evidence_csv,
manuscript_path, bib_path, audit_log_path)`.  The manuscript and
bibliography inputs are the extracted key sets (`none` when the
corresponding path argument is absent); `audit_sink` is whether an
audit log path is configured.  The result pairs the returned
`(success, messages)` with the list of audit entries appended to the
log; an uncaught python exception (layer 2's `ValueError`) is
`.error`. -/
def validate_all_layers (current_year : Int) (citation_keys : List String)
    (sec : String) (f : EvidenceFile)
    (manuscript : Option (Finset String)) (bib : Option (Finset String))
    (audit_sink : Bool) :
    Except CitationErr ((Bool × List String) × List AuditEntry) := do
  match citation_keys.find? (fun k => !((load_evidence_keys f).contains k)) with
  | some k => .ok ((false, [citationNotFoundMsg k]), [])
  | none => do
    let warnings ← validate_section_appropriateness current_year f sec citation_keys
    match manuscript, bib with
    | some text_cites, some bib_cites =>
      match validate_citation_completeness text_cites bib_cites with
      | .error orphans => .ok ((false, warnings ++ [citationMismatchMsg orphans]), [])
      | .ok _ =>
        let entries := if audit_sink then citation_keys.map (fun k => ⟨sec, k, "", verify_doi k f⟩) else ([] : List AuditEntry)
        .ok ((warnings.isEmpty, warnings), entries)
    | _, _ =>
      let entries := if audit_sink then citation_keys.map (fun k => ⟨sec, k, "", verify_doi k f⟩) else ([] : List AuditEntry)
      .ok ((warnings.isEmpty, warnings), entries)

/-! ### Theorems -/

/-- Updating one stage's record in place rewrites exactly that stage's
lookup result. -/
theorem lookupStage_setStage (ws : List (String × StageRec)) (stage : String)
    (f : StageRec → StageRec) :
    lookupStage (setStage ws stage f) stage = (lookupStage ws stage).map f := by
  induction ws with
  | nil => rfl
  | cons p ps ih =>
    by_cases h : p.1 = stage
    · simp [lookupStage, setStage, List.find?_cons, h]
    · have hb : (p.1 == stage) = false := by simp [h]
      simp only [setStage, List.map_cons, hb, if_neg, Bool.false_eq_true, not_false_iff,
        ite_false]
      simp only [lookupStage, List.find?_cons, hb] at ih ⊢
      exact ih

/-- Behaviour of `validate_citation_completeness` as a single equation. -/
theorem validate_citation_completeness_eq (t b : Finset String) :
    validate_citation_completeness t b =
      (if t = b then .ok (∅, ∅) else .error (t \ b, b \ t)) := by
  by_cases h : t = b
  · subst h
    simp [validate_citation_completeness]
  · have hne : t \ b ≠ ∅ ∨ b \ t ≠ ∅ := by
      by_contra hc
      push_neg at hc
      exact h (Finset.Subset.antisymm
        (Finset.sdiff_eq_empty_iff_subset.mp hc.1)
        (Finset.sdiff_eq_empty_iff_subset.mp hc.2))
    simp only [validate_citation_completeness, if_pos hne, if_neg h]

/-- Claim C10: when the evidence table file does not exist, the
entry-validation layer loads an empty key set, and `validate_at_entry`
raises `CitationNotFoundError` for every citation key whatsoever. -/
theorem validate_at_entry_missing_file (key : String) :
    load_evidence_keys (none : EvidenceFile) = [] ∧
    validate_at_entry key (none : EvidenceFile) = .error (.notFound key) :=
  ⟨rfl, rfl⟩

/-- Claim C6: the assembly completeness check returns empty orphan sets
iff the citation keys extracted from the text exactly equal the
bibliography keys; on any asymmetry it raises the citation-mismatch
error carrying both offending sets (text-only keys and
bibliography-only keys). -/
theorem completeness_empty_orphans_iff_equal (t b : Finset String) :
    (validate_citation_completeness t b = .ok (∅, ∅) ↔ t = b) ∧
    validate_citation_completeness t b =
      (if t = b then .ok (∅, ∅) else .error (t \ b, b \ t)) := by
  refine ⟨?_, validate_citation_completeness_eq t b⟩
  rw [validate_citation_completeness_eq t b]
  by_cases h : t = b
  · simp [h]
  · simp [h]

/-- Claim C1 (counterexample): the state store's write is not an atomic
full-document replace — during `_save_state`'s in-place rewrite of the
state file the truncated (empty) document is observable to a reader,
and it is neither the old nor the new state document. -/
theorem save_state_partial_observable :
    "" ∈ save_state_observables "OLD" "NEW" ∧ "" ≠ "OLD" ∧ "" ≠ "NEW" := by
  refine ⟨?_, by decide, by decide⟩
  have h0 : (0 : Nat) ∈ List.range ("NEW".data.length + 1) := by decide
  exact List.mem_cons.mpr (Or.inr (List.mem_map.mpr ⟨0, h0, rfl⟩))

/-- Claim C1 (amended): `_save_state` performs an in-place
truncate-then-write, so the file contents observable across a write are
exactly the old document together with every prefix of the new
serialized document (the empty document and every partial document
included) — a crash mid-write can leave a partial state observable. -/
theorem save_state_observables_charact (old new c : String) :
    c ∈ save_state_observables old new ↔
      c = old ∨ ∃ k, k ≤ new.data.length ∧ c = String.mk (new.data.take k) := by
  simp only [save_state_observables, List.mem_cons, List.mem_map, List.mem_range,
    Nat.lt_succ_iff]
  constructor
  · rintro (h | ⟨k, hk, hs⟩)
    · exact Or.inl h
    · exact Or.inr ⟨k, hk, hs.symm⟩
  · rintro (h | ⟨k, hk, hs⟩)
    · exact Or.inl h
    · exact Or.inr ⟨k, hk, hs.symm⟩

/-- Claim C2 (counterexample): `update_workflow_stage` enforces no
forward-only transition discipline: starting from the initial state,
marking stage `"plan"` completed and then requesting the transition
`completed → not_started` is accepted (no error is raised) and resets
the stage's status to `"not_started"`. -/
theorem update_stage_backward_accepted :
    ((update_workflow_stage "t1" none initial_workflow_status "plan" "completed").bind
        (fun ws1 => update_workflow_stage "t2" none ws1 "plan" "not_started")).map
      (fun ws2 => (lookupStage ws2 "plan").map (fun r => r.status))
      = .ok (some "not_started") := by
  rfl

/-- Claim C2 (amended): `update_workflow_stage` validates only the
stage name: for any known stage it stores whatever status value is
requested, unconditionally — in particular the backward transition
`completed → not_started` is accepted and takes effect. -/
theorem update_workflow_stage_sets_any_status (now : String) (git : Option String)
    (ws : List (String × StageRec)) (stage status : String)
    (h : (lookupStage ws stage).isSome = true) :
    (update_workflow_stage now git ws stage status).map
      (fun ws2 => (lookupStage ws2 stage).map (fun r => r.status)) = .ok (some status) := by
  cases hlk : lookupStage ws stage with
  | none => rw [hlk] at h; simp at h
  | some r =>
    have hne : (lookupStage ws stage).isNone = false := by rw [hlk]; rfl
    unfold update_workflow_stage
    simp only [hne, Bool.false_eq_true, if_false]
    by_cases hc : status = "completed"
    · simp [hc, Except.map, lookupStage_setStage, hlk]
    · simp [hc, Except.map, lookupStage_setStage, hlk]

/-- Witness for the amended C2 theorem at a concrete state. -/
theorem update_workflow_stage_sets_any_status_witness :
    (update_workflow_stage "t" none initial_workflow_status "plan" "not_started").map
      (fun ws2 => (lookupStage ws2 "plan").map (fun r => r.status)) = .ok (some "not_started") :=
  update_workflow_stage_sets_any_status "t" none initial_workflow_status "plan"
    "not_started" (by decide)

/-- Claim C4: for any directory containing one of the tool's own
marker files, the checkpoint operation always fails with the
unsafe-target safety error (`GitSafetyError` for the tool repository)
and performs no commit — the version history is returned unchanged.
The violation is surfaced as the operation's error outcome, never
silently bypassed. -/
theorem checkpoint_tool_repo_rejected (fs : ManuscriptFS) (history : List Commit)
    (files : List String) (stage description : String) (auto_commit : Bool)
    (m : String) (hm : m ∈ TOOL_MARKERS) (hfs : fs.files.contains m = true)
    (hdir : fs.dirExists = true) :
    (checkpoint fs history files stage description auto_commit).1 = .error .toolRepo ∧
    (checkpoint fs history files stage description auto_commit).2 = history := by
  have hany : TOOL_MARKERS.any (fun mk => fs.files.contains mk) = true :=
    List.any_eq_true.mpr ⟨m, hm, hfs⟩
  unfold checkpoint validate_manuscript_directory check_not_tool_repo
  rw [hdir]
  by_cases h0 : fs.files.contains "scripts/rrwrite_state_manager.py" = true
  · have h0m : "scripts/rrwrite_state_manager.py" ∈ fs.files := by simpa using h0
    simp [h0m]
  · have h0m : "scripts/rrwrite_state_manager.py" ∉ fs.files := by simpa using h0
    have hanym : ∃ x ∈ TOOL_MARKERS, x ∈ fs.files := by simpa using hany
    simp [h0m, hanym]

/-- Witness for C4: a directory holding the analyzer-script marker is
rejected and the history (here one prior commit) is untouched. -/
theorem checkpoint_tool_repo_rejected_witness :
    (checkpoint ⟨true, ["notes.md", "scripts/rrwrite-analyze-repo.py"], true, none⟩
        [⟨"plan", "outline", ["outline.md"]⟩] ["draft.md"] "drafting" "draft" true).1
        = .error .toolRepo ∧
    (checkpoint ⟨true, ["notes.md", "scripts/rrwrite-analyze-repo.py"], true, none⟩
        [⟨"plan", "outline", ["outline.md"]⟩] ["draft.md"] "drafting" "draft" true).2
        = [⟨"plan", "outline", ["outline.md"]⟩] :=
  checkpoint_tool_repo_rejected
    ⟨true, ["notes.md", "scripts/rrwrite-analyze-repo.py"], true, none⟩
    [⟨"plan", "outline", ["outline.md"]⟩] ["draft.md"] "drafting" "draft" true
    "scripts/rrwrite-analyze-repo.py" (by decide) (by decide) rfl

/-- Rows surviving the deduplication come from the input table. -/
theorem mem_of_mem_ddkl (a : EvidenceRow) (l : List EvidenceRow) :
    a ∈ drop_duplicates_keep_last l → a ∈ l := by
  induction l with
  | nil => intro h; simpa [drop_duplicates_keep_last] using h
  | cons z zs ih =>
    intro h
    by_cases hz : zs.any (fun y => y.doi == z.doi) = true
    · rw [show drop_duplicates_keep_last (z :: zs) = drop_duplicates_keep_last zs from by
        simp [drop_duplicates_keep_last, hz]] at h
      exact List.mem_cons.mpr (Or.inr (ih h))
    · rw [show drop_duplicates_keep_last (z :: zs) = z :: drop_duplicates_keep_last zs from by
        simp [drop_duplicates_keep_last, hz]] at h
      rcases List.mem_cons.mp h with h1 | h2
      · exact List.mem_cons.mpr (Or.inl h1)
      · exact List.mem_cons.mpr (Or.inr (ih h2))

/-- Deduplication cannot introduce a key that was absent. -/
theorem any_ddkl_false (p : EvidenceRow → Bool) (l : List EvidenceRow)
    (h : l.any p = false) : (drop_duplicates_keep_last l).any p = false := by
  by_contra hc
  have hc2 : (drop_duplicates_keep_last l).any p = true := by
    cases h2 : (drop_duplicates_keep_last l).any p
    · exact absurd h2 hc
    · rfl
  obtain ⟨y, hy, hyp⟩ := List.any_eq_true.mp hc2
  have : l.any p = true := List.any_eq_true.mpr ⟨y, mem_of_mem_ddkl y l hy, hyp⟩
  rw [h] at this
  exact Bool.false_ne_true this

/-- Appending one row: it is kept, and every earlier row with its key
is dropped. -/
theorem ddkl_append_single (l : List EvidenceRow) (x : EvidenceRow) :
    drop_duplicates_keep_last (l ++ [x]) =
      (drop_duplicates_keep_last l).filter (fun y => !(y.doi == x.doi)) ++ [x] := by
  induction l with
  | nil => simp [drop_duplicates_keep_last]
  | cons z zs ih =>
    rw [List.cons_append]
    by_cases h : zs.any (fun y => y.doi == z.doi) = true
    · have h2 : ((zs ++ [x]).any (fun y => y.doi == z.doi)) = true := by
        rw [List.any_append, h]; rfl
      rw [show drop_duplicates_keep_last (z :: (zs ++ [x])) =
            drop_duplicates_keep_last (zs ++ [x]) from by
          simp [drop_duplicates_keep_last, h2]]
      rw [show drop_duplicates_keep_last (z :: zs) = drop_duplicates_keep_last zs from by
          simp [drop_duplicates_keep_last, h]]
      exact ih
    · by_cases hzx : z.doi = x.doi
      · have h2 : ((zs ++ [x]).any (fun y => y.doi == z.doi)) = true := by
          rw [List.any_append]
          have : ([x].any (fun y => y.doi == z.doi)) = true := by simp [hzx]
          rw [this]; simp
        rw [show drop_duplicates_keep_last (z :: (zs ++ [x])) =
              drop_duplicates_keep_last (zs ++ [x]) from by
            simp [drop_duplicates_keep_last, h2]]
        rw [show drop_duplicates_keep_last (z :: zs) = z :: drop_duplicates_keep_last zs from by
            simp [drop_duplicates_keep_last, h]]
        rw [ih, List.filter_cons]
        simp [hzx]
      · have h2 : ((zs ++ [x]).any (fun y => y.doi == z.doi)) = false := by
          rw [List.any_append]
          have hx : ([x].any (fun y => y.doi == z.doi)) = false := by
            simp [List.any_cons]
            exact fun he => hzx he.symm
          have hzs : zs.any (fun y => y.doi == z.doi) = false := by simpa using h
          rw [hx, hzs]
          rfl
        rw [show drop_duplicates_keep_last (z :: (zs ++ [x])) =
              z :: drop_duplicates_keep_last (zs ++ [x]) from by
            simp [drop_duplicates_keep_last, h2]]
        rw [show drop_duplicates_keep_last (z :: zs) = z :: drop_duplicates_keep_last zs from by
            simp [drop_duplicates_keep_last, h]]
        rw [ih, List.filter_cons]
        simp [hzx]

/-- Filtering by a property of the key commutes with the per-key `any`
test, when the reference key itself satisfies the property. -/
theorem any_key_filter (p : Option String → Bool) (v : Option String)
    (hpv : p v = true) (l : List EvidenceRow) :
    (l.filter (fun y => p y.doi)).any (fun y => y.doi == v) =
      l.any (fun y => y.doi == v) := by
  induction l with
  | nil => rfl
  | cons z zs ih =>
    by_cases hz : p z.doi = true
    · simp [List.filter_cons, hz, List.any_cons, ih]
    · have hzv : (z.doi == v) = false := by
        by_cases he : z.doi = v
        · rw [he] at hz; exact absurd hpv hz
        · simp [he]
      simp [List.filter_cons, hz, List.any_cons, ih, hzv]

/-- Filtering by a property of the key commutes with deduplication. -/
theorem filter_key_ddkl (p : Option String → Bool) (l : List EvidenceRow) :
    (drop_duplicates_keep_last l).filter (fun y => p y.doi) =
      drop_duplicates_keep_last (l.filter (fun y => p y.doi)) := by
  induction l with
  | nil => rfl
  | cons z zs ih =>
    by_cases h : zs.any (fun y => y.doi == z.doi) = true
    · by_cases hz : p z.doi = true
      · have h2 : ((zs.filter (fun y => p y.doi)).any (fun y => y.doi == z.doi)) = true := by
          rw [any_key_filter p z.doi hz zs]; exact h
        simp [drop_duplicates_keep_last, h, List.filter_cons, hz, h2, ih]
      · simp [drop_duplicates_keep_last, h, List.filter_cons, hz, ih]
    · have hf : ((zs.filter (fun y => p y.doi)).any (fun y => y.doi == z.doi)) = false := by
        cases h3 : (zs.filter (fun y => p y.doi)).any (fun y => y.doi == z.doi)
        · rfl
        · obtain ⟨y, hy, hyd⟩ := List.any_eq_true.mp h3
          exact absurd (List.any_eq_true.mpr ⟨y, (List.mem_filter.mp hy).1, hyd⟩) h
      by_cases hz : p z.doi = true
      · simp [drop_duplicates_keep_last, h, List.filter_cons, hz, hf, ih]
      · simp [drop_duplicates_keep_last, h, List.filter_cons, hz, hf, ih]

/-- The newest-first scan is the reversal of `drop_duplicates` with
`keep="last"`, restricted to keys not yet seen. -/
theorem dedupNewestFirst_eq (m : List EvidenceRow) :
    ∀ seen : List (Option String),
      dedupNewestFirst seen m =
        (drop_duplicates_keep_last
          (m.reverse.filter (fun y => !(seen.contains y.doi)))).reverse := by
  induction m with
  | nil => intro seen; rfl
  | cons x xs ih =>
    intro seen
    by_cases h : seen.contains x.doi = true
    · have hm : x.doi ∈ seen := by simpa using h
      have hsplit : (x :: xs).reverse.filter (fun y => !(seen.contains y.doi)) =
          xs.reverse.filter (fun y => !(seen.contains y.doi)) := by
        simp [List.reverse_cons, List.filter_append, List.filter_cons, hm]
      rw [show dedupNewestFirst seen (x :: xs) = dedupNewestFirst seen xs from by
        simp only [dedupNewestFirst]
        rw [if_pos h]]
      rw [hsplit, ih]
    · have hm : x.doi ∉ seen := by simpa using h
      have hsplit : (x :: xs).reverse.filter (fun y => !(seen.contains y.doi)) =
          xs.reverse.filter (fun y => !(seen.contains y.doi)) ++ [x] := by
        simp [List.reverse_cons, List.filter_append, List.filter_cons, hm]
      rw [show dedupNewestFirst seen (x :: xs) =
            x :: dedupNewestFirst (x.doi :: seen) xs from by
        simp only [dedupNewestFirst]
        rw [if_neg h]]
      rw [hsplit, ddkl_append_single, List.reverse_append]
      rw [show ([x] : List EvidenceRow).reverse = [x] from rfl]
      rw [ih (x.doi :: seen)]
      rw [filter_key_ddkl (fun o => !(o == x.doi))]
      rw [List.filter_filter]
      have hpred : ∀ y : EvidenceRow,
          ((!((x.doi :: seen).contains y.doi)) : Bool) =
            ((!(y.doi == x.doi)) && (!(seen.contains y.doi))) := by
        intro y
        by_cases he : y.doi = x.doi
        · simp [List.contains_cons, he]
        · simp [List.contains_cons, he]
      rw [List.filter_congr (fun y _ => hpred y)]
      rfl

/-- Claim C5 (counterexample): on two tables holding one
identifier-less entry each, `merge_evidence` collapses the two entries
to the newer one, while the spec's reference definition retains both —
so `merge_evidence` does not equal the reference definition. -/
theorem merge_evidence_differs_from_spec :
    merge_evidence [⟨none, "k1", "c1", "q1"⟩] [⟨none, "k2", "c2", "q2"⟩] ≠
      mergeEvidenceSpec [⟨none, "k1", "c1", "q1"⟩] [⟨none, "k2", "c2", "q2"⟩] := by
  decide

/-- Claim C5 (amended): `merge_evidence` equals the reference
definition amended in the identifier-less case: the concatenation of
both tables deduplicated by identifier with the newest (new-table)
entry winning, where all entries lacking an identifier share a single
deduplication key and are likewise collapsed to the newest one —
identifier-less entries are not retained unconditionally. -/
theorem merge_evidence_eq_amended_spec (old_rows new_rows : List EvidenceRow) :
    merge_evidence old_rows new_rows = mergeEvidenceSpecAmended old_rows new_rows := by
  unfold merge_evidence mergeEvidenceSpecAmended
  rw [dedupNewestFirst_eq, List.reverse_reverse, List.reverse_reverse]
  have hall : (old_rows ++ new_rows).filter
      (fun y => !(([] : List (Option String)).contains y.doi)) = old_rows ++ new_rows := by
    have := List.filter_true (old_rows ++ new_rows)
    simpa using this
  rw [hall]

/-- Deduplicating an already deduplicated front segment changes
nothing. -/
theorem ddkl_ddkl_append (l l2 : List EvidenceRow) :
    drop_duplicates_keep_last (drop_duplicates_keep_last l ++ l2) =
      drop_duplicates_keep_last (l ++ l2) := by
  induction l with
  | nil => rfl
  | cons x xs ih =>
    by_cases h : xs.any (fun y => y.doi == x.doi) = true
    · have h2 : ((xs ++ l2).any (fun y => y.doi == x.doi)) = true := by
        rw [List.any_append, h]; rfl
      rw [show drop_duplicates_keep_last (x :: xs) = drop_duplicates_keep_last xs from by
        simp [drop_duplicates_keep_last, h]]
      rw [ih, List.cons_append]
      rw [show drop_duplicates_keep_last (x :: (xs ++ l2)) =
            drop_duplicates_keep_last (xs ++ l2) from by
        simp [drop_duplicates_keep_last, h2]]
    · have hxs : xs.any (fun y => y.doi == x.doi) = false := by simpa using h
      have hkey : (drop_duplicates_keep_last xs).any (fun y => y.doi == x.doi) = false :=
        any_ddkl_false _ _ hxs
      rw [show drop_duplicates_keep_last (x :: xs) = x :: drop_duplicates_keep_last xs from by
        simp [drop_duplicates_keep_last, h]]
      rw [List.cons_append, List.cons_append]
      by_cases hl2 : l2.any (fun y => y.doi == x.doi) = true
      · have c1 : ((drop_duplicates_keep_last xs ++ l2).any (fun y => y.doi == x.doi)) = true := by
          rw [List.any_append, hkey, hl2]; rfl
        have c2 : ((xs ++ l2).any (fun y => y.doi == x.doi)) = true := by
          rw [List.any_append, hxs, hl2]; rfl
        rw [show drop_duplicates_keep_last (x :: (drop_duplicates_keep_last xs ++ l2)) =
              drop_duplicates_keep_last (drop_duplicates_keep_last xs ++ l2) from by
          simp [drop_duplicates_keep_last, c1]]
        rw [show drop_duplicates_keep_last (x :: (xs ++ l2)) =
              drop_duplicates_keep_last (xs ++ l2) from by
          simp [drop_duplicates_keep_last, c2]]
        exact ih
      · have hl2f : l2.any (fun y => y.doi == x.doi) = false := by simpa using hl2
        have c1 : ((drop_duplicates_keep_last xs ++ l2).any (fun y => y.doi == x.doi)) = false := by
          rw [List.any_append, hkey, hl2f]; rfl
        have c2 : ((xs ++ l2).any (fun y => y.doi == x.doi)) = false := by
          rw [List.any_append, hxs, hl2f]; rfl
        rw [show drop_duplicates_keep_last (x :: (drop_duplicates_keep_last xs ++ l2)) =
              x :: drop_duplicates_keep_last (drop_duplicates_keep_last xs ++ l2) from by
          simp [drop_duplicates_keep_last, c1]]
        rw [show drop_duplicates_keep_last (x :: (xs ++ l2)) =
              x :: drop_duplicates_keep_last (xs ++ l2) from by
          simp [drop_duplicates_keep_last, c2]]
        rw [ih]

/-- Rows of the front segment whose key reappears later can be dropped
up front without changing the deduplication result. -/
theorem ddkl_absorb (l1 l2 : List EvidenceRow) :
    drop_duplicates_keep_last (l1 ++ l2) =
      drop_duplicates_keep_last
        (l1.filter (fun y => !(l2.any (fun z => z.doi == y.doi))) ++ l2) := by
  induction l1 with
  | nil => rfl
  | cons x xs ih =>
    rw [List.cons_append]
    by_cases h : l2.any (fun z => z.doi == x.doi) = true
    · have c : ((xs ++ l2).any (fun y => y.doi == x.doi)) = true := by
        rw [List.any_append, h]
        simp
      rw [show drop_duplicates_keep_last (x :: (xs ++ l2)) =
            drop_duplicates_keep_last (xs ++ l2) from by
        simp [drop_duplicates_keep_last, c]]
      rw [ih, List.filter_cons]
      simp [h]
    · have hp : ((!(l2.any (fun z => z.doi == x.doi))) : Bool) = true := by simp [h]
      have hfilt : ((xs.filter (fun y => !(l2.any (fun z => z.doi == y.doi)))).any
          (fun y => y.doi == x.doi)) = xs.any (fun y => y.doi == x.doi) :=
        any_key_filter (fun o => !(l2.any (fun z => z.doi == o))) x.doi hp xs
      have hl2f : l2.any (fun y => y.doi == x.doi) = false := by simpa using h
      rw [List.filter_cons]
      simp only [hp, if_true]
      rw [List.cons_append]
      by_cases hxs : xs.any (fun y => y.doi == x.doi) = true
      · have c1 : ((xs ++ l2).any (fun y => y.doi == x.doi)) = true := by
          rw [List.any_append, hxs]; rfl
        have c2 : (((xs.filter (fun y => !(l2.any (fun z => z.doi == y.doi)))) ++ l2).any
            (fun y => y.doi == x.doi)) = true := by
          rw [List.any_append, hfilt, hxs]; rfl
        rw [show drop_duplicates_keep_last (x :: (xs ++ l2)) =
              drop_duplicates_keep_last (xs ++ l2) from by
          simp [drop_duplicates_keep_last, c1]]
        rw [show drop_duplicates_keep_last
              (x :: ((xs.filter (fun y => !(l2.any (fun z => z.doi == y.doi)))) ++ l2)) =
              drop_duplicates_keep_last
                ((xs.filter (fun y => !(l2.any (fun z => z.doi == y.doi)))) ++ l2) from by
          simp [drop_duplicates_keep_last, c2]]
        exact ih
      · have hxsf : xs.any (fun y => y.doi == x.doi) = false := by simpa using hxs
        have c1 : ((xs ++ l2).any (fun y => y.doi == x.doi)) = false := by
          rw [List.any_append, hxsf, hl2f]; rfl
        have c2 : (((xs.filter (fun y => !(l2.any (fun z => z.doi == y.doi)))) ++ l2).any
            (fun y => y.doi == x.doi)) = false := by
          rw [List.any_append, hfilt, hxsf, hl2f]; rfl
        rw [show drop_duplicates_keep_last (x :: (xs ++ l2)) =
              x :: drop_duplicates_keep_last (xs ++ l2) from by
          simp [drop_duplicates_keep_last, c1]]
        rw [show drop_duplicates_keep_last
              (x :: ((xs.filter (fun y => !(l2.any (fun z => z.doi == y.doi)))) ++ l2)) =
              x :: drop_duplicates_keep_last
                ((xs.filter (fun y => !(l2.any (fun z => z.doi == y.doi)))) ++ l2) from by
          simp [drop_duplicates_keep_last, c2]]
        rw [ih]

/-- Every row of a table blocks itself: filtering a table down to rows
whose key does not occur in that same table leaves nothing. -/
theorem filter_self_keys_nil (B : List EvidenceRow) :
    B.filter (fun y => !(B.any (fun z => z.doi == y.doi))) = [] := by
  rw [List.filter_eq_nil_iff]
  intro y hy
  have : B.any (fun z => z.doi == y.doi) = true := List.any_eq_true.mpr ⟨y, hy, by simp⟩
  simp [this]

/-- Claim C9: evidence merge is idempotent — merging the result of
`merge_evidence A B` with `B` again reproduces `merge_evidence A B`
(stated, as the spec does, for tables of identifier-bearing entries;
the proof does not in fact need the identifiers). -/
theorem merge_evidence_idempotent (A B : List EvidenceRow)
    (hA : ∀ e ∈ A, e.doi.isSome = true) (hB : ∀ e ∈ B, e.doi.isSome = true) :
    merge_evidence (merge_evidence A B) B = merge_evidence A B := by
  unfold merge_evidence
  rw [ddkl_ddkl_append]
  rw [ddkl_absorb (A ++ B) B, ddkl_absorb A B]
  rw [List.filter_append, filter_self_keys_nil, List.append_nil]

/-- Witness for C9 at concrete identifier-bearing tables with one
shared identifier. -/
theorem merge_evidence_idempotent_witness :
    merge_evidence
        (merge_evidence [⟨some "10.1038/n1", "a", "ca", "old quote"⟩]
          [⟨some "10.1038/n1", "a", "ca", "new quote"⟩, ⟨some "10.1038/n2", "b", "cb", "qb"⟩])
        [⟨some "10.1038/n1", "a", "ca", "new quote"⟩, ⟨some "10.1038/n2", "b", "cb", "qb"⟩] =
      merge_evidence [⟨some "10.1038/n1", "a", "ca", "old quote"⟩]
        [⟨some "10.1038/n1", "a", "ca", "new quote"⟩, ⟨some "10.1038/n2", "b", "cb", "qb"⟩] :=
  merge_evidence_idempotent _ _ (by decide) (by decide)

/-- In-place update never changes how many sections exist. -/
theorem setSec_length (secs : List (String × SectionRec)) (name : String)
    (f : SectionRec → SectionRec) : (setSec secs name f).length = secs.length :=
  List.length_map secs _

/-- Registration keeps the counter in step with the section map. -/
theorem register_section_inv (d : DraftingRecord) (sec : String)
    (h1 : d.total_sections = d.sections.length) :
    (register_section d sec).total_sections = (register_section d sec).sections.length := by
  unfold register_section
  split
  · simp [List.length_append, h1]
  · exact h1

/-- Registration does not touch the aggregate status. -/
theorem register_section_status (d : DraftingRecord) (sec : String) :
    (register_section d sec).status = d.status := by
  unfold register_section
  split <;> rfl

/-- The field-update phase keeps the counter in step with the section
map. -/
theorem update_section_core_total (now : String) (d : DraftingRecord) (sec status : String)
    (fp : Option String) (tc : Option Nat) (h1 : d.total_sections = d.sections.length) :
    (update_section_core now d sec status fp tc).total_sections =
      (update_section_core now d sec status fp tc).sections.length := by
  have hreg := register_section_inv d sec h1
  unfold update_section_core
  rcases fp with _ | f
  · by_cases hs : status = "completed"
    · rcases tc with _ | t <;> simp [hs, setSec_length, hreg]
    · simp [hs, setSec_length, hreg]
  · by_cases hf : f = ""
    · by_cases hs : status = "completed"
      · rcases tc with _ | t <;> simp [hf, hs, setSec_length, hreg]
      · simp [hf, hs, setSec_length, hreg]
    · by_cases hs : status = "completed"
      · rcases tc with _ | t <;> simp [hf, hs, setSec_length, hreg]
      · simp [hf, hs, setSec_length, hreg]

/-- The field-update phase does not touch the aggregate status. -/
theorem update_section_core_status (now : String) (d : DraftingRecord) (sec status : String)
    (fp : Option String) (tc : Option Nat) :
    (update_section_core now d sec status fp tc).status = d.status := by
  have hreg := register_section_status d sec
  unfold update_section_core
  rcases fp with _ | f
  · by_cases hs : status = "completed"
    · rcases tc with _ | t <;> simp [hs, hreg]
    · simp [hs, hreg]
  · by_cases hf : f = ""
    · by_cases hs : status = "completed"
      · rcases tc with _ | t <;> simp [hf, hs, hreg]
      · simp [hf, hs, hreg]
    · by_cases hs : status = "completed"
      · rcases tc with _ | t <;> simp [hf, hs, hreg]
      · simp [hf, hs, hreg]

/-- The aggregation step marks the stage completed exactly when every
section is completed, provided the counter is in step with the section
map and the stage was not already marked completed. -/
theorem aggregate_drafting_status_iff (now : String) (git : Option String)
    (d : DraftingRecord) (h1 : d.total_sections = d.sections.length)
    (h2 : d.status ≠ "completed") :
    ((aggregate_drafting now git d).status = "completed" ↔
      ∀ p ∈ (aggregate_drafting now git d).sections, p.2.status = "completed") := by
  unfold aggregate_drafting
  by_cases hc : ((d.sections.filter (fun p => p.2.status == "completed")).length
      == d.total_sections) = true
  · rw [if_pos hc]
    constructor
    · intro _ p hp
      have heq : (d.sections.filter (fun p => p.2.status == "completed")).length =
          d.total_sections := by
        have := hc
        rwa [beq_iff_eq] at this
      have hlen : (d.sections.filter (fun p => p.2.status == "completed")).length =
          d.sections.length := by rw [heq, h1]
      have hq := List.filter_length_eq_length.mp hlen p hp
      simpa using hq
    · intro _
      rfl
  · rw [if_neg hc]
    constructor
    · intro hst
      exact absurd hst h2
    · intro hall
      exfalso
      apply hc
      have hlen : (d.sections.filter (fun p => p.2.status == "completed")).length =
          d.sections.length :=
        List.filter_length_eq_length.mpr (fun a ha => by simpa using hall a ha)
      rw [beq_iff_eq, hlen, h1]

/-- Claim C3 (counterexample): the drafting aggregate status is not an
invariant of arbitrary update sequences — after completing all six
default sections (drafting becomes `"completed"`) and then moving
section `"abstract"` back to `"in_progress"`, the stage still reports
`"completed"` although not every registered section is completed. -/
theorem drafting_aggregate_counterexample :
    (let d :=
      [("abstract", "completed"), ("introduction", "completed"), ("methods", "completed"),
       ("results", "completed"), ("discussion", "completed"), ("availability", "completed"),
       ("abstract", "in_progress")].foldl
        (fun d su => update_section_status "t" none d su.1 su.2 none none) initial_drafting
     d.status = "completed" ∧
       (d.sections.all (fun p => p.2.status == "completed")) = false) := by
  decide

/-- Claim C3 (amended): the aggregate is recomputed only on an update
whose new status is `"completed"`; at such an update the drafting stage
is marked completed iff every registered section (the dynamically grown
set included) is completed, provided the stage was not already marked
completed and the section counter is in step with the section map.  The
aggregate is never recomputed downward, so (per the counterexample) a
later non-completed section update can leave the stage marked completed
while a section is no longer completed. -/
theorem drafting_completed_iff (now : String) (git : Option String) (d : DraftingRecord)
    (sec : String) (fp : Option String) (tc : Option Nat)
    (h1 : d.total_sections = d.sections.length) (h2 : d.status ≠ "completed") :
    ((update_section_status now git d sec "completed" fp tc).status = "completed" ↔
      ∀ p ∈ (update_section_status now git d sec "completed" fp tc).sections,
        p.2.status = "completed") := by
  unfold update_section_status
  rw [if_pos rfl]
  exact aggregate_drafting_status_iff now git _
    (update_section_core_total now d sec "completed" fp tc h1)
    (by rw [update_section_core_status]; exact h2)

/-- Witness for the amended C3 theorem: completing `"abstract"` from
the initial state (where not every section is completed) leaves the
aggregate non-completed, in accordance with the iff. -/
theorem drafting_completed_iff_witness :
    ((update_section_status "t" none initial_drafting "abstract" "completed" none none).status
        = "completed" ↔
      ∀ p ∈ (update_section_status "t" none initial_drafting "abstract" "completed"
          none none).sections, p.2.status = "completed") :=
  drafting_completed_iff "t" none initial_drafting "abstract" none none rfl (by decide)

/-- Claim C8 (counterexample): the section-appropriateness layer can
raise.  For an evidence entry whose stored type is `"unknown"`, whose
title matches no keyword, and whose year field is the malformed
non-empty string `"n/a"`, type inference evaluates python
`int("n/a")`, which raises `ValueError` out of the layer. -/
theorem section_appropriateness_raises :
    validate_section_appropriateness 2026
        (some [("x", ⟨"An untitled study", "", "", "n/a", "unknown"⟩)]) "methods" ["x"]
      = .error .valueError := by
  rfl

/-- A well-formed (empty or integer-parsable) year field keeps type
inference from raising. -/
theorem infer_citation_type_ok (cy : Int) (m : EvidenceMeta)
    (h : m.year = "" ∨ (pyInt m.year).isSome = true) :
    ∃ t, infer_citation_type cy m = .ok t := by
  unfold infer_citation_type
  dsimp only
  split_ifs with h1 h2 h3 h4 h5 h6
  · exact ⟨_, rfl⟩
  · exact ⟨_, rfl⟩
  · exact ⟨_, rfl⟩
  · exact ⟨_, rfl⟩
  · exact ⟨_, rfl⟩
  · rcases h with hy | hy
    · exact absurd hy h6
    · cases hp : pyInt m.year with
      | none => rw [hp] at hy; simp at hy
      | some y =>
        by_cases hr : y ≥ cy - 5
        · exact ⟨"recent", by simp [hr]⟩
        · by_cases hs : y < cy - 10
          · exact ⟨"seminal", by simp [hr, hs]⟩
          · exact ⟨"unknown", by simp [hr, hs]⟩
  · exact ⟨_, rfl⟩

/-- The per-citation check cannot raise when every year field of the
metadata is well-formed. -/
theorem check_one_citation_ok (cy : Int) (md : List (String × EvidenceMeta))
    (sec : String) (rules : SectionRule) (acc : List String) (cit : String)
    (h : ∀ p ∈ md, p.2.year = "" ∨ (pyInt p.2.year).isSome = true) :
    ∃ w, check_one_citation cy md sec rules acc cit = .ok w := by
  unfold check_one_citation
  cases hlk : lookupMeta md cit with
  | none => exact ⟨acc, rfl⟩
  | some m =>
    have hm : m.year = "" ∨ (pyInt m.year).isSome = true := by
      unfold lookupMeta at hlk
      cases hf : md.find? (fun p => p.1 == cit) with
      | none => rw [hf] at hlk; simp at hlk
      | some p =>
        rw [hf] at hlk
        simp at hlk
        have hpm := List.mem_of_find?_eq_some hf
        have := h p hpm
        rwa [hlk] at this
    dsimp only
    by_cases hs : m.citation_type = "unknown"
    · obtain ⟨t, ht⟩ := infer_citation_type_ok cy m hm
      rw [if_pos hs, ht]
      exact ⟨_, rfl⟩
    · rw [if_neg hs]
      exact ⟨_, rfl⟩

/-- The whole warning loop cannot raise when every year field of the
metadata is well-formed. -/
theorem foldlM_check_ok (cy : Int) (md : List (String × EvidenceMeta)) (sec : String)
    (rules : SectionRule)
    (h : ∀ p ∈ md, p.2.year = "" ∨ (pyInt p.2.year).isSome = true) :
    ∀ (citations : List String) (acc : List String),
      ∃ w, citations.foldlM (fun a c => check_one_citation cy md sec rules a c) acc
        = .ok w := by
  intro citations
  induction citations with
  | nil => intro acc; exact ⟨acc, rfl⟩
  | cons c cs ih =>
    intro acc
    obtain ⟨w1, hw1⟩ := check_one_citation_ok cy md sec rules acc c h
    obtain ⟨w2, hw2⟩ := ih w1
    refine ⟨w2, ?_⟩
    rw [List.foldlM_cons, hw1]
    simpa using hw2

/-- Claim C8 (amended): the section-appropriateness layer only returns
a list of human-readable warnings — it cannot raise — provided every
evidence entry's year field is either empty or a valid integer literal
(a malformed non-empty year raises `ValueError`, per the
counterexample). -/
theorem section_appropriateness_no_raise (cy : Int) (f : EvidenceFile) (sec : String)
    (citations : List String)
    (h : ∀ p ∈ load_citation_metadata f, p.2.year = "" ∨ (pyInt p.2.year).isSome = true) :
    ∃ w, validate_section_appropriateness cy f sec citations = .ok w := by
  unfold validate_section_appropriateness
  dsimp only
  cases hr : lookupRule (pyLower sec) with
  | none => exact ⟨[], rfl⟩
  | some rules =>
    dsimp only
    exact foldlM_check_ok cy (load_citation_metadata f) sec rules h citations _

/-- Witness for the amended C8 theorem: a table whose single entry has
the parsable year `"2024"` produces warnings without raising. -/
theorem section_appropriateness_no_raise_witness :
    ∃ w, validate_section_appropriateness 2026
        (some [("x", ⟨"An untitled study", "", "10.1/x", "2024", "unknown"⟩)])
        "methods" ["x"] = .ok w :=
  section_appropriateness_no_raise 2026
    (some [("x", ⟨"An untitled study", "", "10.1/x", "2024", "unknown"⟩)])
    "methods" ["x"] (by decide)

/-- Claim C7 (counterexample): with an audit sink configured, a run on
which layer 1 reports its fatal error returns immediately and appends
no audit entry for any of the keys — the layer-4 audit logging is
skipped on fatal runs, not "always run". -/
theorem validate_all_layers_audit_skipped :
    validate_all_layers 2026 ["k"] "methods" (some []) none none true
      = .ok ((false, [citationNotFoundMsg "k"]), []) := by
  rfl

/-- Claim C7 (amended): `validate_all_layers` runs layers 1–3 in
order, short-circuits on the first fatal error from layer 1 or layer 3,
accumulates layer-2 warnings regardless (they are part of the output
even on a layer-3 error), and runs the layer-4 audit logging (one entry
per key) exactly when an audit sink is configured AND neither layer 1
nor layer 3 reported a fatal error; on fatal runs the audit logging is
skipped.  (Stated under the hypothesis that layer 2 itself returns
rather than raising, cf. C8.) -/
theorem validate_all_layers_charact (cy : Int) (keys : List String) (sec : String)
    (f : EvidenceFile) (text_cites bib_cites : Finset String) (audit_sink : Bool)
    (ws : List String)
    (h : validate_section_appropriateness cy f sec keys = .ok ws) :
    validate_all_layers cy keys sec f (some text_cites) (some bib_cites) audit_sink =
      (match keys.find? (fun k => !((load_evidence_keys f).contains k)) with
      | some k => .ok ((false, [citationNotFoundMsg k]), [])
      | none =>
        if text_cites = bib_cites then
          .ok ((ws.isEmpty, ws),
            if audit_sink then keys.map (fun k => ⟨sec, k, "", verify_doi k f⟩) else [])
        else
          .ok ((false,
            ws ++ [citationMismatchMsg (text_cites \ bib_cites, bib_cites \ text_cites)]),
            [])) := by
  unfold validate_all_layers
  cases hf : keys.find? (fun k => !((load_evidence_keys f).contains k)) with
  | some k => rfl
  | none =>
    by_cases he : text_cites = bib_cites
    · simp only [h, validate_citation_completeness_eq, he, if_pos rfl]
      rfl
    · simp only [h, validate_citation_completeness_eq, if_neg he]
      rfl

/-- Witness for the amended C7 theorem: a clean run (all keys backed,
matching key sets, audit sink configured) follows the characterized
shape, in particular writing one audit entry per key. -/
theorem validate_all_layers_charact_witness :
    validate_all_layers 2026 ["a"] "Methods"
        (some [("a", ⟨"A study", "", "10.1/a", "2024", "tool"⟩)])
        (some ∅) (some ∅) true =
      (match ["a"].find? (fun k =>
          !((load_evidence_keys
              (some [("a", ⟨"A study", "", "10.1/a", "2024", "tool"⟩)])).contains k)) with
      | some k => .ok ((false, [citationNotFoundMsg k]), [])
      | none =>
        if (∅ : Finset String) = (∅ : Finset String) then
          .ok ((([] : List String).isEmpty, ([] : List String)),
            if true then ["a"].map (fun k => ⟨"Methods", k, "",
                verify_doi k (some [("a", ⟨"A study", "", "10.1/a", "2024", "tool"⟩)])⟩)
            else [])
        else
          .ok ((false, ([] : List String) ++
              [citationMismatchMsg ((∅ : Finset String) \ (∅ : Finset String),
                (∅ : Finset String) \ (∅ : Finset String))]), [])) :=
  validate_all_layers_charact 2026 ["a"] "Methods"
    (some [("a", ⟨"A study", "", "10.1/a", "2024", "tool"⟩)]) ∅ ∅ true [] (by rfl)

end RRWrite
